import Mathlib

/-!
Verification development for libzygote (src/zygote.c, src/grow.c).

The daemon side is modelled at message granularity: the bytes the client
writes on the Unix-domain stream are abstracted into a list of wire items
(`RItem`), one item per protocol value (an integer, a length-prefixed
string, or a descriptor-transfer message carrying one byte plus one file
descriptor).  A read call in the C code that fails (returns -1) is
modelled by the stream not offering an item of the expected shape at that
point.  Channel writes performed by the daemon child are modelled as
always succeeding; they are recorded as events in an observable trace
(`Ev`), together with the other externally visible actions of the child
(environment replacement, chdir, dlopen/dlsym/dlclose, dup2, invoking the
loaded unit, closing the connection, exiting).

`grow_this_zygote` follows src/zygote.c lines 168-287: any failed read,
a version mismatch, a dlopen or dlsym failure, or a dup2 failure jumps to
the error label, which writes EXIT_FAILURE (1) on the channel, closes it
and exits with status 1; on success the unit result is written either
immediately or, when the platform has on_exit (HAS_ON_EXIT), by an exit
hook that runs when the child process exits.  The `Cfg` record carries
the compiled-in protocol version (ZYGOTE_VERSION from zygote.h), the
child pid, oracles for dlopen/dlsym/dup2 success and the loaded unit's
entry point `run`, abstracted as a function of the received argc integer
and the decoded argument vector (the capability objects objc/objv are
fixed per daemon and folded into that function).

The development has two layers.  The abstract layer (`RItem`,
`grow_this_zygote`) treats every stream that does not offer a complete
expected item as a failed read; this is coarser than the C checks, which
detect only read() returning -1 (zygote.c lines 182, 194, 257-259): an
EOF or short read returns 0 and the code continues on stale values, and
a negative environment or argument count reaches the unchecked mallocs
at lines 219 and 231.  The theorems proved over the abstract layer are
confined to executions on which the two agree: streams whose consumed
prefix consists of complete items (or whose first item completes, for
the version-mismatch path).  The refined layer (`WItem`, `COut`,
`grow_this_zygoteE`) distinguishes the read outcomes exactly as the C
checks do — detected error (-1), undetected EOF/truncation, complete
datum — and models the unchecked-allocation crash paths, in order to
settle the reply-on-every-path property, which the abstract layer cannot
decide.
-/

namespace Libzygote

/-- One value on the wire: a host-order integer, a length-prefixed string
(length word and payload collapsed into one item), or a descriptor-transfer
message (one payload byte plus one passed file descriptor). -/
inductive RItem where
  | rint (n : Int)
  | rstr (s : String)
  | rfd (fd : Int)
deriving DecidableEq

/-- Which request field a daemon-side read was for (the NAME argument of
the recvNum/recvStr macros and of the three read_fd calls in zygote.c). -/
inductive Field where
  | version
  | envc
  | envStr
  | cwd
  | argcF
  | argv0
  | argvI
  | fdStderr
  | fdStdout
  | fdStdin
deriving DecidableEq

/-- Observable actions of the daemon child while serving one request. -/
inductive Ev where
  /-- a read on the connection for the given field (the attempt; emitted
  also when the read fails) -/
  | readEv (f : Field)
  /-- a read_fd on the connection that received descriptor `fd` -/
  | recvFdEv (f : Field) (fd : Int)
  /-- the write of the child pid right after version validation -/
  | pidWrite (n : Int)
  /-- a write of an exit-status integer on the connection (the Response,
  written at line 276/284 of zygote.c or by replyWithExitStatus) -/
  | statusWrite (n : Int)
  /-- replacement of environ by the received environment -/
  | setEnvEv (env : List String)
  /-- chdir to the received cwd (its failure is ignored by the source) -/
  | chdirEv (d : String)
  /-- dlopen of the code-unit locator -/
  | dlopenEv (p : String)
  /-- dlsym lookup of the entry symbol "run" -/
  | dlsymEv
  /-- dlclose of the loaded unit -/
  | dlcloseEv
  /-- dup2(src, tgt) installing a received descriptor onto a slot -/
  | dup2Ev (src : Int) (tgt : Int)
  /-- invocation of the unit entry point with the received argc integer,
  the decoded argument vector, and its integer result -/
  | runEv (argcArg : Int) (argv : List String) (ret : Int)
  /-- registration of the replyWithExitStatus on_exit hook -/
  | registerHookEv
  /-- close of the connection descriptor -/
  | closeConn
  /-- close(2) of an arbitrary descriptor.  The dispatch path of
  src/zygote.c contains no close of the received carrier descriptors, so
  this event is never emitted by the model of grow_this_zygote; the
  constructor exists so that properties about such closes are stateable. -/
  | closeFdEv (fd : Int)
  /-- process exit with the given status -/
  | exitEv (n : Int)
deriving DecidableEq

/-- Daemon-child configuration: everything the dispatch of one request
depends on besides the wire stream. -/
structure Cfg where
  /-- ZYGOTE_VERSION, the compiled-in protocol version constant -/
  zver : Int
  /-- getpid() of the forked child -/
  pid : Int
  /-- whether dlopen succeeds on a given locator -/
  dlopenOk : String → Bool
  /-- whether dlsym resolves the entry symbol of a given locator -/
  dlsymOk : String → Bool
  /-- the loaded unit entry point: receives the argc integer from the wire
  and the decoded argument vector, returns the unit result (objc/objv,
  the capability objects, are fixed per daemon and folded in) -/
  run : Int → List String → Int
  /-- whether dup2(fds[i], i) fails for slot i -/
  dup2Fail : Nat → Bool
  /-- whether the platform has on_exit (HAS_ON_EXIT in zygote.c) -/
  hasOnExit : Bool

/-- recvNum macro (zygote.c lines 180-183) in the abstract layer: read
one integer.  Here every stream not offering a complete integer is sent
to the failed-read outcome; the C check detects only read() == -1, so an
EOF/short read actually continues with a stale num — `recvNumE` below
keeps the two apart.  Theorems over this layer only exercise it on
complete items. -/
def recvNum (f : Field) : List RItem → Option Int × List RItem × List Ev
  | RItem.rint n :: rest => (some n, rest, [Ev.readEv f])
  | inp => (none, inp, [Ev.readEv f])

/-- recvStr macro (zygote.c lines 187-196) in the abstract layer: read a
length-prefixed string (length word and payload are one wire item).  As
with `recvNum`, an undetected truncation (the code checks only
read() == -1 at lines 189 and 194 and would otherwise keep stale length
and buffer contents) is collapsed into the failed-read outcome here and
separated in the refined layer. -/
def recvStr (f : Field) : List RItem → Option String × List RItem × List Ev
  | RItem.rstr s :: rest => (some s, rest, [Ev.readEv f])
  | inp => (none, inp, [Ev.readEv f])

/-- The environ / argv reading loops (zygote.c lines 220-222 and 236-239):
read `n` length-prefixed strings in order. -/
def readStrs (f : Field) : Nat → List RItem → Option (List String) × List RItem × List Ev
  | 0, inp => (some [], inp, [])
  | Nat.succ k, inp =>
    match recvStr f inp with
    | (none, i, t) => (none, i, t)
    | (some s, i, t) =>
      match readStrs f k i with
      | (none, i2, t2) => (none, i2, t ++ t2)
      | (some ss, i2, t2) => (some (s :: ss), i2, t ++ t2)

/-- The three read_fd calls (zygote.c lines 256-259) in the abstract
layer, in source order: stderr into fds[2], then stdout into fds[1],
then stdin into fds[0].  A missing descriptor message is collapsed into
the failed-read outcome here; in the code read_fd returns 0 at EOF (line
127) and the == -1 checks miss it, leaving fds[i] uninitialized — the
refined layer (`recvFdE`) keeps that path apart.  Theorems over this
layer only exercise it on complete transfers. -/
def readFds (inp : List RItem) : Option (Int × Int × Int) × List RItem × List Ev :=
  match inp with
  | RItem.rfd e2 :: r1 =>
    match r1 with
    | RItem.rfd e1 :: r2 =>
      match r2 with
      | RItem.rfd e0 :: r3 =>
        (some (e2, e1, e0), r3,
         [Ev.recvFdEv Field.fdStderr e2, Ev.recvFdEv Field.fdStdout e1,
          Ev.recvFdEv Field.fdStdin e0])
      | _ => (none, r2, [Ev.recvFdEv Field.fdStderr e2, Ev.recvFdEv Field.fdStdout e1,
                         Ev.readEv Field.fdStdin])
    | _ => (none, r1, [Ev.recvFdEv Field.fdStderr e2, Ev.readEv Field.fdStdout])
  | _ => (none, inp, [Ev.readEv Field.fdStderr])

/-- The request decoding that follows the pid write (zygote.c lines
218-241) in the abstract layer: envc, the environment strings (environ
is replaced), cwd (chdir), the argc integer, argv[0] = the code-unit
locator, then the remaining argc-1 arguments.  Returns the locator, the
received argc integer and the decoded argument vector.  The .toNat
bounds are exercised by the theorems over this layer only with
non-negative counts (the encoder never produces others); a negative
count in the code reaches the unchecked mallocs at lines 219 and 231
and is a crash path, modelled by `grow_this_zygoteE`. -/
def readPreambleRest (inp : List RItem) :
    Option (String × Int × List String) × List RItem × List Ev :=
  match recvNum Field.envc inp with
  | (none, i, t) => (none, i, t)
  | (some ne, i1, t1) =>
    match readStrs Field.envStr ne.toNat i1 with
    | (none, i, t) => (none, i, t1 ++ t)
    | (some env, i2, t2) =>
      match recvStr Field.cwd i2 with
      | (none, i, t) => (none, i, t1 ++ t2 ++ (Ev.setEnvEv env :: t))
      | (some cwd, i3, t3) =>
        match recvNum Field.argcF i3 with
        | (none, i, t) =>
          (none, i, t1 ++ t2 ++ (Ev.setEnvEv env :: (t3 ++ (Ev.chdirEv cwd :: t))))
        | (some na, i4, t4) =>
          match recvStr Field.argv0 i4 with
          | (none, i, t) =>
            (none, i,
             t1 ++ t2 ++ (Ev.setEnvEv env :: (t3 ++ (Ev.chdirEv cwd :: (t4 ++ t)))))
          | (some cp, i5, t5) =>
            match readStrs Field.argvI (na - 1).toNat i5 with
            | (none, i, t) =>
              (none, i,
               t1 ++ t2 ++ (Ev.setEnvEv env ::
                 (t3 ++ (Ev.chdirEv cwd :: (t4 ++ t5 ++ t)))))
            | (some args, i6, t6) =>
              (some (cp, na, cp :: args), i6,
               t1 ++ t2 ++ (Ev.setEnvEv env ::
                 (t3 ++ (Ev.chdirEv cwd :: (t4 ++ t5 ++ t6)))))

/-- Version validation and pid reply (zygote.c lines 207-215), then the
rest of the request.  A mismatched version jumps to the error label with
nothing further read and no pid written. -/
def readPreamble (cfg : Cfg) (inp : List RItem) :
    Option (String × Int × List String) × List RItem × List Ev :=
  match recvNum Field.version inp with
  | (none, i, t) => (none, i, t)
  | (some v, i1, t1) =>
    if v = cfg.zver then
      match readPreambleRest i1 with
      | (r, i2, t2) => (r, i2, t1 ++ (Ev.pidWrite cfg.pid :: t2))
    else (none, i1, t1)

/-- Loading and running the unit (zygote.c lines 243-269): dlopen the
locator, dlsym "run", receive the three descriptors, dup2 them onto
slots 0,1,2 (loop order i = 0,1,2), invoke the entry point, dlclose. -/
def finishDispatch (cfg : Cfg) (cp : String) (na : Int) (argv : List String)
    (inp : List RItem) : Option Int × List RItem × List Ev :=
  if cfg.dlopenOk cp then
    if cfg.dlsymOk cp then
      match readFds inp with
      | (none, i, t) => (none, i, Ev.dlopenEv cp :: Ev.dlsymEv :: t)
      | (some (e2, e1, e0), i, t) =>
        if cfg.dup2Fail 0 then
          (none, i, Ev.dlopenEv cp :: Ev.dlsymEv :: (t ++ [Ev.dup2Ev e0 0]))
        else if cfg.dup2Fail 1 then
          (none, i, Ev.dlopenEv cp :: Ev.dlsymEv ::
            (t ++ [Ev.dup2Ev e0 0, Ev.dup2Ev e1 1]))
        else if cfg.dup2Fail 2 then
          (none, i, Ev.dlopenEv cp :: Ev.dlsymEv ::
            (t ++ [Ev.dup2Ev e0 0, Ev.dup2Ev e1 1, Ev.dup2Ev e2 2]))
        else
          (some (cfg.run na argv), i,
           Ev.dlopenEv cp :: Ev.dlsymEv ::
             (t ++ [Ev.dup2Ev e0 0, Ev.dup2Ev e1 1, Ev.dup2Ev e2 2,
                    Ev.runEv na argv (cfg.run na argv), Ev.dlcloseEv]))
    else (none, inp, [Ev.dlopenEv cp, Ev.dlsymEv])
  else (none, inp, [Ev.dlopenEv cp])

/-- The whole decode-and-dispatch body of grow_this_zygote before the
reply is produced: preamble then load/run. -/
def growBody (cfg : Cfg) (inp : List RItem) : Option Int × List RItem × List Ev :=
  match readPreamble cfg inp with
  | (none, i, t) => (none, i, t)
  | (some pre, i, t) =>
    match finishDispatch cfg pre.1 pre.2.1 pre.2.2 i with
    | (r, i2, t2) => (r, i2, t ++ t2)

/-- grow_this_zygote (zygote.c lines 168-287), as the trace of one served
request.  On any failure the error label writes EXIT_FAILURE (1), closes
the connection and exits with 1.  On success the unit result is the
Response: sent by the on_exit hook when the child process exits
(HAS_ON_EXIT), or written immediately otherwise; the child process then
exits with the unit result. -/
def grow_this_zygote (cfg : Cfg) (inp : List RItem) : List Ev :=
  match growBody cfg inp with
  | (none, _, t) => t ++ [Ev.statusWrite 1, Ev.closeConn, Ev.exitEv 1]
  | (some n, _, t) =>
    t ++ (if cfg.hasOnExit then [Ev.registerHookEv, Ev.exitEv n, Ev.statusWrite n]
          else [Ev.statusWrite n, Ev.exitEv n])

/-- The request encoding produced by the client (grow.c lines 128-157),
as a function of the protocol version constant, the client environment,
its cwd and its full argument vector argv (argv = grow, the socket path,
the code path, then the extra arguments).  It sends: the version, the
environment count and strings, the cwd, the integer argc - 2, the code
path (argv[2]), the strings argv[3..], and finally the three descriptor
transfers in the order stderr (2), stdout (1), stdin (0). -/
def encodeRequest (zver : Int) (env : List String) (cwd : String)
    (argv : List String) : List RItem :=
  RItem.rint zver ::
  RItem.rint (Int.ofNat env.length) ::
  (env.map RItem.rstr ++
   (RItem.rstr cwd ::
    RItem.rint (Int.ofNat argv.length - 2) ::
    RItem.rstr (argv.getD 2 "") ::
    ((argv.drop 3).map RItem.rstr ++
     [RItem.rfd 2, RItem.rfd 1, RItem.rfd 0])))

/-- Whether a wire item is a length-prefixed string. -/
def isRstrB : RItem → Bool
  | RItem.rstr _ => true
  | _ => false

/-- The wire item in the argv_count position of an encoded request (right
after the version, the environment count, the environment strings and the
cwd). -/
def sentArgvCount (zver : Int) (env : List String) (cwd : String)
    (argv : List String) : RItem :=
  (encodeRequest zver env cwd argv).getD (3 + env.length) (RItem.rint 0)

/-- The run of length-prefixed argument strings that follows the code-unit
locator in an encoded request (everything strictly after the locator, up
to the descriptor transfers). -/
def sentArgvTail (zver : Int) (env : List String) (cwd : String)
    (argv : List String) : List RItem :=
  ((encodeRequest zver env cwd argv).drop (5 + env.length)).takeWhile isRstrB

/-- Observable actions of the client (grow.c). -/
inductive CEv where
  /-- the usage message printed when fewer than two operands are given -/
  | usageMsg
  /-- creation of the PF_UNIX stream socket -/
  | sockCreate
  /-- the connect call on the socket -/
  | connectAttempt
  /-- a write of one wire item on the connection -/
  | sendEv (it : RItem)
  /-- the single read of the reply integer -/
  | recvEv
  /-- close of the socket descriptor -/
  | closeEv
deriving DecidableEq

/-- Client-side configuration: the process environment and cwd that get
encoded, the protocol version constant, oracles for the socket path
fitting in sun_path, socket creation and connect succeeding, and the
integer the final read returns (none models read returning -1).  Writes
on the connected socket are modelled as succeeding. -/
structure ClientCfg where
  env : List String
  cwd : String
  zver : Int
  pathFits : Bool
  sockOk : Bool
  connectOk : Bool
  response : Option Int

/-- open_unix_fd (grow.c lines 75-93): the path-length check precedes
socket creation; a failed connect closes the socket.  Returns whether a
connected descriptor was obtained, with the trace of socket actions. -/
def open_unix_fd (c : ClientCfg) : Bool × List CEv :=
  if c.pathFits then
    if c.sockOk then
      if c.connectOk then (true, [CEv.sockCreate, CEv.connectAttempt])
      else (false, [CEv.sockCreate, CEv.connectAttempt, CEv.closeEv])
    else (false, [CEv.sockCreate])
  else (false, [])

/-- main of grow.c (lines 96-167): with fewer than 3 argv entries, print
usage and return 1 before any socket activity; otherwise connect, send
the encoded request, read one integer and return it (close first), or
return -1 on a connect or read failure. -/
def growMain (c : ClientCfg) (argv : List String) : Int × List CEv :=
  if argv.length < 3 then (1, [CEv.usageMsg])
  else
    match open_unix_fd c with
    | (false, t) => (-1, t)
    | (true, t) =>
      let t2 := t ++ (encodeRequest c.zver c.env c.cwd argv).map CEv.sendEv
      match c.response with
      | none => (-1, t2 ++ [CEv.recvEv, CEv.closeEv])
      | some n => (n, t2 ++ [CEv.recvEv, CEv.closeEv])

/-- The process-wide listening-endpoint state of the daemon
(zygote_socket_fd and zygote_socket_path, zygote.c lines 303-304); a fd
of -1 and a path of none are the not-applicable values. -/
structure Endpoint where
  fd : Int
  path : Option String
deriving DecidableEq

/-- A system call attempted by the cleanup routine. -/
inductive CleanAct where
  | closeA (fd : Int)
  | unlinkA (p : String)
deriving DecidableEq

/-- The system calls cleanup attempts on a given endpoint state
(zygote.c lines 305-310): close when the fd is not -1, unlink when the
path is set.  The return values of close and unlink are ignored by the
source. -/
def cleanupActs (e : Endpoint) : List CleanAct :=
  (if e.fd = -1 then [] else [CleanAct.closeA e.fd]) ++
  (match e.path with
   | none => []
   | some p => [CleanAct.unlinkA p])

/-- cleanup (zygote.c lines 305-310) as a state transformer: it attempts
its close/unlink calls and leaves the endpoint state unchanged (the
source never assigns zygote_socket_fd or zygote_socket_path inside
cleanup). -/
def cleanup (e : Endpoint) : Endpoint × List CleanAct :=
  (e, cleanupActs e)

set_option linter.unusedVariables false in
/-- The child branch of the fork in the accept loop (zygote.c lines
402-410): whatever endpoint state was inherited from the parent is
overwritten with the not-applicable values before dispatching. -/
def forkChildClear (inherited : Endpoint) : Endpoint :=
  { fd := -1, path := none }

/-- The forked child: clear the endpoint state, then serve the request
via grow_this_zygote.  The first component is the endpoint state in
effect for the whole dispatch and for the child exit path (the child
never assigns it again). -/
def zygoteChildBranch (inherited : Endpoint) (cfg : Cfg) (inp : List RItem) :
    Endpoint × List Ev :=
  (forkChildClear inherited, grow_this_zygote cfg inp)

/-- Configuration of the direct-invocation fallback zygote_skip: whether
dlopen(NULL) on the daemon image succeeds, whether the entry symbol
resolves there, and the entry point itself (argc and argv arguments;
objc/objv folded in as in `Cfg`). -/
structure SkipCfg where
  dlopenSelfOk : Bool
  dlsymOk : Bool
  run : Int → List String → Int

/-- zygote_skip (zygote.c lines 419-461): look up the entry point in the
daemon own image and call it with argc = 1 and argv = [""]; -1 when
dlopen or dlsym fails.  No channel and no caller-supplied argument
strings are involved. -/
def zygote_skip (cfg : SkipCfg) : Int :=
  if cfg.dlopenSelfOk then
    if cfg.dlsymOk then cfg.run 1 [""]
    else -1
  else -1

/-- Whether an event is a write of a Response status integer. -/
def isStatusWrite : Ev → Bool
  | Ev.statusWrite _ => true
  | _ => false

/-- Whether an event is a close of an arbitrary descriptor. -/
def isCloseFd : Ev → Bool
  | Ev.closeFdEv _ => true
  | _ => false

/-- Events that the request preamble (version, pid reply, environment,
cwd, argv decoding) can emit. -/
def preambleEv : Ev → Bool
  | Ev.readEv _ => true
  | Ev.pidWrite _ => true
  | Ev.setEnvEv _ => true
  | Ev.chdirEv _ => true
  | _ => false

/-- Events that the load-and-run phase can emit. -/
def dispatchEv : Ev → Bool
  | Ev.readEv _ => true
  | Ev.recvFdEv _ _ => true
  | Ev.dlopenEv _ => true
  | Ev.dlsymEv => true
  | Ev.dlcloseEv => true
  | Ev.dup2Ev _ _ => true
  | Ev.runEv _ _ _ => true
  | _ => false

/-- Events the body (everything before the reply) can emit: everything
except status writes, descriptor closes, hook registration, connection
close and process exit. -/
def bodyEvOk : Ev → Bool
  | Ev.statusWrite _ => false
  | Ev.closeFdEv _ => false
  | Ev.registerHookEv => false
  | Ev.closeConn => false
  | Ev.exitEv _ => false
  | _ => true

lemma recvNum_all (f : Field) (inp : List RItem) :
    ∀ e ∈ (recvNum f inp).2.2, e = Ev.readEv f := by
  cases inp with
  | nil => simp [recvNum]
  | cons h t => cases h <;> simp [recvNum]

lemma recvStr_all (f : Field) (inp : List RItem) :
    ∀ e ∈ (recvStr f inp).2.2, e = Ev.readEv f := by
  cases inp with
  | nil => simp [recvStr]
  | cons h t => cases h <;> simp [recvStr]

lemma readStrs_all (f : Field) (n : Nat) (inp : List RItem) :
    ∀ e ∈ (readStrs f n inp).2.2, e = Ev.readEv f := by
  induction n generalizing inp with
  | zero => simp [readStrs]
  | succ k ih =>
    intro e he
    unfold readStrs at he
    split at he
    next i t h1 =>
      have h2 := recvStr_all f inp e
      rw [h1] at h2
      exact h2 he
    next s i t h1 =>
      split at he
      next i2 t2 h3 =>
        rcases List.mem_append.mp he with hl | hr
        · have h2 := recvStr_all f inp e
          rw [h1] at h2
          exact h2 hl
        · have h2 := ih i e
          rw [h3] at h2
          exact h2 hr
      next ss i2 t2 h3 =>
        rcases List.mem_append.mp he with hl | hr
        · have h2 := recvStr_all f inp e
          rw [h1] at h2
          exact h2 hl
        · have h2 := ih i e
          rw [h3] at h2
          exact h2 hr

lemma readFds_all (inp : List RItem) :
    ∀ e ∈ (readFds inp).2.2, (∃ f fd, e = Ev.recvFdEv f fd) ∨ ∃ f, e = Ev.readEv f := by
  intro e he
  unfold readFds at he
  split at he
  · split at he
    · split at he
      · simp only [List.mem_cons, List.mem_singleton, List.not_mem_nil] at he
        rcases he with h | h | h | h <;> first
          | exact Or.inl ⟨_, _, h⟩
          | exact h.elim
      · simp only [List.mem_cons, List.mem_singleton, List.not_mem_nil] at he
        rcases he with h | h | h | h <;> first
          | exact Or.inl ⟨_, _, h⟩
          | exact Or.inr ⟨_, h⟩
          | exact h.elim
    · simp only [List.mem_cons, List.mem_singleton, List.not_mem_nil] at he
      rcases he with h | h | h <;> first
        | exact Or.inl ⟨_, _, h⟩
        | exact Or.inr ⟨_, h⟩
        | exact h.elim
  · simp only [List.mem_cons, List.not_mem_nil] at he
    rcases he with h | h <;> first
      | exact Or.inr ⟨_, h⟩
      | exact h.elim

lemma readPreambleRest_all (inp : List RItem) :
    ∀ e ∈ (readPreambleRest inp).2.2, preambleEv e = true := by
  unfold readPreambleRest
  split
  next i t h1 =>
    intro e he
    have h2 := recvNum_all Field.envc inp e
    rw [h1] at h2
    rw [h2 he]; rfl
  next ne i1 t1 h1 =>
    have a1 : ∀ e ∈ t1, preambleEv e = true := by
      intro e he
      have h2 := recvNum_all Field.envc inp e
      rw [h1] at h2
      rw [h2 he]; rfl
    split
    next i t h2 =>
      intro e he
      rcases List.mem_append.mp he with h | h
      · exact a1 e h
      · have h3 := readStrs_all Field.envStr ne.toNat i1 e
        rw [h2] at h3
        rw [h3 h]; rfl
    next env i2 t2 h2 =>
      have a2 : ∀ e ∈ t2, preambleEv e = true := by
        intro e he
        have h3 := readStrs_all Field.envStr ne.toNat i1 e
        rw [h2] at h3
        rw [h3 he]; rfl
      split
      next i t h3 =>
        have a3 : ∀ e ∈ t, preambleEv e = true := by
          intro e he
          have h4 := recvStr_all Field.cwd i2 e
          rw [h3] at h4
          rw [h4 he]; rfl
        intro e he
        simp only [List.append_assoc, List.mem_append, List.mem_cons] at he
        rcases he with h | h | h | h
        · exact a1 e h
        · exact a2 e h
        · rw [h]; rfl
        · exact a3 e h
      next cwd i3 t3 h3 =>
        have a3 : ∀ e ∈ t3, preambleEv e = true := by
          intro e he
          have h4 := recvStr_all Field.cwd i2 e
          rw [h3] at h4
          rw [h4 he]; rfl
        split
        next i t h4 =>
          have a4 : ∀ e ∈ t, preambleEv e = true := by
            intro e he
            have h5 := recvNum_all Field.argcF i3 e
            rw [h4] at h5
            rw [h5 he]; rfl
          intro e he
          simp only [List.append_assoc, List.mem_append, List.mem_cons] at he
          rcases he with h | h | h | h | h | h
          · exact a1 e h
          · exact a2 e h
          · rw [h]; rfl
          · exact a3 e h
          · rw [h]; rfl
          · exact a4 e h
        next na i4 t4 h4 =>
          have a4 : ∀ e ∈ t4, preambleEv e = true := by
            intro e he
            have h5 := recvNum_all Field.argcF i3 e
            rw [h4] at h5
            rw [h5 he]; rfl
          split
          next i t h5 =>
            have a5 : ∀ e ∈ t, preambleEv e = true := by
              intro e he
              have h6 := recvStr_all Field.argv0 i4 e
              rw [h5] at h6
              rw [h6 he]; rfl
            intro e he
            simp only [List.append_assoc, List.mem_append, List.mem_cons] at he
            rcases he with h | h | h | h | h | h | h
            · exact a1 e h
            · exact a2 e h
            · rw [h]; rfl
            · exact a3 e h
            · rw [h]; rfl
            · exact a4 e h
            · exact a5 e h
          next cp i5 t5 h5 =>
            have a5 : ∀ e ∈ t5, preambleEv e = true := by
              intro e he
              have h6 := recvStr_all Field.argv0 i4 e
              rw [h5] at h6
              rw [h6 he]; rfl
            split
            next i t h6 =>
              have a6 : ∀ e ∈ t, preambleEv e = true := by
                intro e he
                have h7 := readStrs_all Field.argvI (na - 1).toNat i5 e
                rw [h6] at h7
                rw [h7 he]; rfl
              intro e he
              simp only [List.append_assoc, List.mem_append, List.mem_cons] at he
              rcases he with h | h | h | h | h | h | h | h
              · exact a1 e h
              · exact a2 e h
              · rw [h]; rfl
              · exact a3 e h
              · rw [h]; rfl
              · exact a4 e h
              · exact a5 e h
              · exact a6 e h
            next args i6 t6 h6 =>
              have a6 : ∀ e ∈ t6, preambleEv e = true := by
                intro e he
                have h7 := readStrs_all Field.argvI (na - 1).toNat i5 e
                rw [h6] at h7
                rw [h7 he]; rfl
              intro e he
              simp only [List.append_assoc, List.mem_append, List.mem_cons] at he
              rcases he with h | h | h | h | h | h | h | h
              · exact a1 e h
              · exact a2 e h
              · rw [h]; rfl
              · exact a3 e h
              · rw [h]; rfl
              · exact a4 e h
              · exact a5 e h
              · exact a6 e h

lemma readPreamble_all (cfg : Cfg) (inp : List RItem) :
    ∀ e ∈ (readPreamble cfg inp).2.2, preambleEv e = true := by
  unfold readPreamble
  split
  next i t h1 =>
    intro e he
    have h2 := recvNum_all Field.version inp e
    rw [h1] at h2
    rw [h2 he]; rfl
  next v i1 t1 h1 =>
    have a1 : ∀ e ∈ t1, preambleEv e = true := by
      intro e he
      have h2 := recvNum_all Field.version inp e
      rw [h1] at h2
      rw [h2 he]; rfl
    split
    · split
      next r i2 t2 h2 =>
        intro e he
        simp only [List.mem_append, List.mem_cons] at he
        rcases he with h | h | h
        · exact a1 e h
        · rw [h]; rfl
        · have h3 := readPreambleRest_all i1 e
          rw [h2] at h3
          exact h3 h
    · exact a1

lemma readFds_some (inp : List RItem) (e2 e1 e0 : Int) (rest : List RItem)
    (t : List Ev) (h : readFds inp = (some (e2, e1, e0), rest, t)) :
    t = [Ev.recvFdEv Field.fdStderr e2, Ev.recvFdEv Field.fdStdout e1,
         Ev.recvFdEv Field.fdStdin e0] ∧
    inp = RItem.rfd e2 :: RItem.rfd e1 :: RItem.rfd e0 :: rest := by
  unfold readFds at h
  split at h
  · split at h
    · split at h
      · simp only [Prod.mk.injEq, Option.some.injEq] at h
        obtain ⟨⟨ha, hb, hc⟩, hrest, ht⟩ := h
        subst ha; subst hb; subst hc; subst hrest; subst ht
        exact ⟨rfl, rfl⟩
      · simp at h
    · simp at h
  · simp at h

lemma bodyEvOk_of_preamble {e : Ev} (h : preambleEv e = true) : bodyEvOk e = true := by
  cases e <;> simp_all [preambleEv, bodyEvOk]

lemma bodyEvOk_of_dispatch {e : Ev} (h : dispatchEv e = true) : bodyEvOk e = true := by
  cases e <;> simp_all [dispatchEv, bodyEvOk]

lemma finishDispatch_all (cfg : Cfg) (cp : String) (na : Int) (argv : List String)
    (inp : List RItem) :
    ∀ e ∈ (finishDispatch cfg cp na argv inp).2.2, dispatchEv e = true := by
  unfold finishDispatch
  have hfd : ∀ e ∈ (readFds inp).2.2, dispatchEv e = true := by
    intro e he
    rcases readFds_all inp e he with ⟨f, fd, h⟩ | ⟨f, h⟩ <;> rw [h] <;> rfl
  split
  · split
    · split
      next i t h1 =>
        have a1 : ∀ e ∈ t, dispatchEv e = true := by
          intro e he
          have h2 := hfd e
          rw [h1] at h2
          exact h2 he
        intro e he
        simp only [List.mem_cons] at he
        rcases he with h | h | h
        · rw [h]; rfl
        · rw [h]; rfl
        · exact a1 e h
      next e2 e1 e0 i t h1 =>
        have a1 : ∀ e ∈ t, dispatchEv e = true := by
          intro e he
          have h2 := hfd e
          rw [h1] at h2
          exact h2 he
        split
        · intro e he
          simp only [List.mem_cons, List.mem_append, List.mem_singleton] at he
          rcases he with h | h | h
          · rw [h]; rfl
          · rw [h]; rfl
          · rcases h with h | h
            · exact a1 e h
            · rcases h with h | h
              · rw [h]; rfl
              · exact absurd h (List.not_mem_nil e)
        · split
          · intro e he
            simp only [List.mem_cons, List.mem_append] at he
            rcases he with h | h | h
            · rw [h]; rfl
            · rw [h]; rfl
            · rcases h with h | h
              · exact a1 e h
              · simp only [List.mem_cons, List.not_mem_nil] at h
                rcases h with h | h
                · rw [h]; rfl
                · rcases h with h | h
                  · rw [h]; rfl
                  · exact h.elim
          · split
            · intro e he
              simp only [List.mem_cons, List.mem_append] at he
              rcases he with h | h | h
              · rw [h]; rfl
              · rw [h]; rfl
              · rcases h with h | h
                · exact a1 e h
                · simp only [List.mem_cons, List.not_mem_nil] at h
                  rcases h with h | h | h | h
                  · rw [h]; rfl
                  · rw [h]; rfl
                  · rw [h]; rfl
                  · exact h.elim
            · intro e he
              simp only [List.mem_cons, List.mem_append] at he
              rcases he with h | h | h
              · rw [h]; rfl
              · rw [h]; rfl
              · rcases h with h | h
                · exact a1 e h
                · simp only [List.mem_cons, List.not_mem_nil] at h
                  rcases h with h | h | h | h | h | h
                  · rw [h]; rfl
                  · rw [h]; rfl
                  · rw [h]; rfl
                  · rw [h]; rfl
                  · rw [h]; rfl
                  · exact h.elim
    · intro e he
      simp only [List.mem_cons, List.not_mem_nil] at he
      rcases he with h | h | h
      · rw [h]; rfl
      · rw [h]; rfl
      · exact h.elim
  · intro e he
    simp only [List.mem_singleton] at he
    rw [he]; rfl

lemma growBody_all (cfg : Cfg) (inp : List RItem) :
    ∀ e ∈ (growBody cfg inp).2.2, bodyEvOk e = true := by
  unfold growBody
  split
  next i t h1 =>
    intro e he
    have h2 := readPreamble_all cfg inp e
    rw [h1] at h2
    exact bodyEvOk_of_preamble (h2 he)
  next pre i t h1 =>
    split
    next r i2 t2 h2 =>
      intro e he
      rcases List.mem_append.mp he with h | h
      · have h3 := readPreamble_all cfg inp e
        rw [h1] at h3
        exact bodyEvOk_of_preamble (h3 h)
      · have h3 := finishDispatch_all cfg pre.1 pre.2.1 pre.2.2 i e
        rw [h2] at h3
        exact bodyEvOk_of_dispatch (h3 h)

lemma finishDispatch_some_char (cfg : Cfg) (cp : String) (na : Int)
    (argv : List String) (inp : List RItem) (r : Int) (i : List RItem) (t : List Ev)
    (h : finishDispatch cfg cp na argv inp = (some r, i, t)) :
    r = cfg.run na argv ∧ ∃ e2 e1 e0,
      inp = RItem.rfd e2 :: RItem.rfd e1 :: RItem.rfd e0 :: i ∧
      t = [Ev.dlopenEv cp, Ev.dlsymEv, Ev.recvFdEv Field.fdStderr e2,
           Ev.recvFdEv Field.fdStdout e1, Ev.recvFdEv Field.fdStdin e0,
           Ev.dup2Ev e0 0, Ev.dup2Ev e1 1, Ev.dup2Ev e2 2,
           Ev.runEv na argv r, Ev.dlcloseEv] := by
  unfold finishDispatch at h
  split at h
  · split at h
    · split at h
      next i0 t0 h1 => simp at h
      next e2 e1 e0 i0 t0 h1 =>
        split at h
        · simp at h
        · split at h
          · simp at h
          · split at h
            · simp at h
            · simp only [Prod.mk.injEq, Option.some.injEq] at h
              obtain ⟨hr, hi, ht⟩ := h
              obtain ⟨ht0, hinp⟩ := readFds_some inp e2 e1 e0 i0 t0 h1
              subst hr
              subst hi
              refine ⟨rfl, e2, e1, e0, hinp, ?_⟩
              rw [← ht, ht0]
              rfl
    · simp at h
  · simp at h

lemma finishDispatch_none_no_run (cfg : Cfg) (cp : String) (na : Int)
    (argv : List String) (inp : List RItem) (i : List RItem) (t : List Ev)
    (h : finishDispatch cfg cp na argv inp = (none, i, t)) :
    ∀ a b r, Ev.runEv a b r ∉ t := by
  intro a b r hmem
  unfold finishDispatch at h
  split at h
  · split at h
    · split at h
      next i0 t0 h1 =>
        simp only [Prod.mk.injEq] at h
        obtain ⟨-, -, ht⟩ := h
        rw [← ht] at hmem
        simp only [List.mem_cons] at hmem
        rcases hmem with h2 | h2 | h2
        · exact Ev.noConfusion h2
        · exact Ev.noConfusion h2
        · have h3 := readFds_all inp (Ev.runEv a b r)
          rw [h1] at h3
          rcases h3 h2 with ⟨f, fd, h4⟩ | ⟨f, h4⟩ <;> exact Ev.noConfusion h4
      next e2 e1 e0 i0 t0 h1 =>
        obtain ⟨ht0, -⟩ := readFds_some inp e2 e1 e0 i0 t0 h1
        subst ht0
        split at h
        · simp only [Prod.mk.injEq] at h
          obtain ⟨-, -, ht⟩ := h
          rw [← ht] at hmem
          simp at hmem
        · split at h
          · simp only [Prod.mk.injEq] at h
            obtain ⟨-, -, ht⟩ := h
            rw [← ht] at hmem
            simp at hmem
          · split at h
            · simp only [Prod.mk.injEq] at h
              obtain ⟨-, -, ht⟩ := h
              rw [← ht] at hmem
              simp at hmem
            · simp at h
    · simp only [Prod.mk.injEq] at h
      obtain ⟨-, -, ht⟩ := h
      rw [← ht] at hmem
      simp at hmem
  · simp only [Prod.mk.injEq] at h
    obtain ⟨-, -, ht⟩ := h
    rw [← ht] at hmem
    simp at hmem

lemma growBody_some_char (cfg : Cfg) (inp : List RItem) (n : Int)
    (i : List RItem) (t : List Ev) (h : growBody cfg inp = (some n, i, t)) :
    ∃ cp na argv tp e2 e1 e0,
      readPreamble cfg inp =
        (some (cp, na, argv), RItem.rfd e2 :: RItem.rfd e1 :: RItem.rfd e0 :: i, tp) ∧
      n = cfg.run na argv ∧
      t = tp ++ [Ev.dlopenEv cp, Ev.dlsymEv, Ev.recvFdEv Field.fdStderr e2,
                 Ev.recvFdEv Field.fdStdout e1, Ev.recvFdEv Field.fdStdin e0,
                 Ev.dup2Ev e0 0, Ev.dup2Ev e1 1, Ev.dup2Ev e2 2,
                 Ev.runEv na argv n, Ev.dlcloseEv] := by
  unfold growBody at h
  split at h
  · simp at h
  next pre i1 tp h1 =>
    split at h
    next r i2 t2 h2 =>
      simp only [Prod.mk.injEq] at h
      obtain ⟨hr, hi, ht⟩ := h
      subst hr
      obtain ⟨hrun, e2x, e1x, e0x, hinp, ht2⟩ :=
        finishDispatch_some_char cfg pre.1 pre.2.1 pre.2.2 i1 n i2 t2 h2
      refine ⟨pre.1, pre.2.1, pre.2.2, tp, e2x, e1x, e0x, ?_, hrun, ?_⟩
      · rw [h1, hinp, hi]
      · rw [← ht, ht2]

lemma growBody_none_no_run (cfg : Cfg) (inp : List RItem) (i : List RItem)
    (t : List Ev) (h : growBody cfg inp = (none, i, t)) :
    ∀ a b r, Ev.runEv a b r ∉ t := by
  intro a b r hmem
  unfold growBody at h
  split at h
  next i0 t0 h1 =>
    simp only [Prod.mk.injEq] at h
    obtain ⟨-, -, ht⟩ := h
    rw [← ht] at hmem
    have h2 := readPreamble_all cfg inp (Ev.runEv a b r)
    rw [h1] at h2
    exact absurd (h2 hmem) (by simp [preambleEv])
  next pre i1 tp h1 =>
    split at h
    next r2 i2 t2 h2 =>
      simp only [Prod.mk.injEq] at h
      obtain ⟨hr2, -, ht⟩ := h
      subst hr2
      rw [← ht] at hmem
      rcases List.mem_append.mp hmem with h3 | h3
      · have h4 := readPreamble_all cfg inp (Ev.runEv a b r)
        rw [h1] at h4
        exact absurd (h4 h3) (by simp [preambleEv])
      · exact finishDispatch_none_no_run cfg pre.1 pre.2.1 pre.2.2 i1 i2 t2 h2 a b r h3

lemma grow_this_zygote_preamble_prefix (cfg : Cfg) (inp : List RItem) :
    ∃ d, grow_this_zygote cfg inp = (readPreamble cfg inp).2.2 ++ d := by
  rcases h1 : readPreamble cfg inp with ⟨r1, i1, t1⟩
  cases r1 with
  | none =>
    refine ⟨[Ev.statusWrite 1, Ev.closeConn, Ev.exitEv 1], ?_⟩
    unfold grow_this_zygote growBody
    rw [h1]
  | some pre =>
    rcases h2 : finishDispatch cfg pre.1 pre.2.1 pre.2.2 i1 with ⟨r2, i2, t2⟩
    cases r2 with
    | none =>
      refine ⟨t2 ++ [Ev.statusWrite 1, Ev.closeConn, Ev.exitEv 1], ?_⟩
      unfold grow_this_zygote growBody
      rw [h1]
      simp [h2]
    | some n =>
      refine ⟨t2 ++ (if cfg.hasOnExit then
        [Ev.registerHookEv, Ev.exitEv n, Ev.statusWrite n]
        else [Ev.statusWrite n, Ev.exitEv n]), ?_⟩
      unfold grow_this_zygote growBody
      rw [h1]
      simp [h2]

/-- A concrete daemon-child configuration used to instantiate theorems
with hypotheses: version constant 7, pid 42, loading always succeeds, the
unit returns 5, dup2 never fails, immediate reply (no on_exit). -/
def cfgDemo : Cfg :=
  { zver := 7, pid := 42, dlopenOk := fun _ => true, dlsymOk := fun _ => true,
    run := fun _ _ => 5, dup2Fail := fun _ => false, hasOnExit := false }

/-- A concrete well-formed request produced by the client model. -/
def reqDemo : List RItem := encodeRequest 7 ["A=1"] "/tmp" ["grow", "sock", "unit.so", "x"]

/-- Wire items of the refined transport model, which distinguishes read
outcomes the way the C checks do: `wint`/`wstr`/`wfd` are completely
delivered data, `werr` is a read that fails with -1 — the only outcome
the code detects (zygote.c lines 182, 194, 257-259) — and exhaustion of
the stream is an EOF/short read: read/recvmsg return 0, which the code
never checks, so execution continues on stale values. -/
inductive WItem where
  | wint (n : Int)
  | wstr (s : String)
  | wfd (fd : Int)
  | werr
deriving DecidableEq

/-- Terminal outcome of a child execution in the refined model. -/
inductive COut where
  /-- the unit ran; its value is the Response written at process exit -/
  | reply (n : Int)
  /-- the error label ran (zygote.c lines 282-286): failure status
  written, channel closed, exit 1 -/
  | failStatus
  /-- a definite fault before any Response write: a store through the
  NULL result of an address-space-exceeding malloc; the child dies by
  signal with no reply on the channel -/
  | crash
  /-- execution left what the model can follow: an undetected EOF/short
  read (the code continues on stale or uninitialized data), a transport
  item of the wrong shape (the code would reinterpret raw bytes), or a
  store past a zero-sized allocation; nothing further is claimed about
  such executions -/
  | undef
deriving DecidableEq

/-- One decoding step of the refined model: a value with the remaining
stream and the trace so far, or a terminal result. -/
inductive EStep (α : Type) where
  | ok (a : α) (rest : List WItem) (acc : List Ev)
  | halt (r : COut × List Ev)

/-- The error label of grow_this_zygote (zygote.c lines 282-286). -/
def errorLabelE (acc : List Ev) : COut × List Ev :=
  (COut.failStatus, acc ++ [Ev.statusWrite 1, Ev.closeConn, Ev.exitEv 1])

/-- recvNum in the refined model (zygote.c line 182): only a read
returning -1 jumps to the error label; an EOF or mismatched item is
undetected. -/
def recvNumE (f : Field) (inp : List WItem) (acc : List Ev) : EStep Int :=
  match inp with
  | WItem.wint n :: rest => EStep.ok n rest (acc ++ [Ev.readEv f])
  | WItem.werr :: _ => EStep.halt (errorLabelE (acc ++ [Ev.readEv f]))
  | _ => EStep.halt (COut.undef, acc ++ [Ev.readEv f])

/-- recvStr in the refined model (zygote.c lines 187-196): a detected
error in the length or data read (-1, which also covers a negative or
oversized length making read fail with EINVAL/EFAULT) jumps to the error
label; an undetected truncation keeps stale buffer contents. -/
def recvStrE (f : Field) (inp : List WItem) (acc : List Ev) : EStep String :=
  match inp with
  | WItem.wstr s :: rest => EStep.ok s rest (acc ++ [Ev.readEv f])
  | WItem.werr :: _ => EStep.halt (errorLabelE (acc ++ [Ev.readEv f]))
  | _ => EStep.halt (COut.undef, acc ++ [Ev.readEv f])

/-- read_fd in the refined model (zygote.c lines 98-150, 256-259): -1 is
detected; recvmsg returning 0 at EOF (line 127) passes the == -1 check
with fds[i] left uninitialized, so the continuation is not followed. -/
def recvFdE (f : Field) (inp : List WItem) (acc : List Ev) : EStep Int :=
  match inp with
  | WItem.wfd fd :: rest => EStep.ok fd rest (acc ++ [Ev.recvFdEv f fd])
  | WItem.werr :: _ => EStep.halt (errorLabelE (acc ++ [Ev.readEv f]))
  | _ => EStep.halt (COut.undef, acc ++ [Ev.readEv f])

/-- The environ/argv reading loops in the refined model: n strings, each
with the three-way read outcome. -/
def growEStrs (f : Field) : Nat → List WItem → List Ev → EStep (List String)
  | 0, inp, acc => EStep.ok [] inp acc
  | Nat.succ k, inp, acc =>
    match recvStrE f inp acc with
    | EStep.halt r => EStep.halt r
    | EStep.ok s rest acc2 =>
      match growEStrs f k rest acc2 with
      | EStep.halt r => EStep.halt r
      | EStep.ok ss rest2 acc3 => EStep.ok (s :: ss) rest2 acc3

/-- Loading and running the unit in the refined model (zygote.c lines
243-277): dlopen, dlsym, the three descriptor receptions, the dup2 loop,
the invocation, dlclose and the Response write (immediate or via the
exit hook). -/
def growEDispatch (cfg : Cfg) (cp : String) (na : Int) (argv : List String)
    (inp : List WItem) (acc : List Ev) : COut × List Ev :=
  if cfg.dlopenOk cp then
    if cfg.dlsymOk cp then
      match recvFdE Field.fdStderr inp (acc ++ [Ev.dlopenEv cp, Ev.dlsymEv]) with
      | EStep.halt r => r
      | EStep.ok e2 i1 a1 =>
        match recvFdE Field.fdStdout i1 a1 with
        | EStep.halt r => r
        | EStep.ok e1 i2 a2 =>
          match recvFdE Field.fdStdin i2 a2 with
          | EStep.halt r => r
          | EStep.ok e0 _i3 a3 =>
            if cfg.dup2Fail 0 then errorLabelE (a3 ++ [Ev.dup2Ev e0 0])
            else if cfg.dup2Fail 1 then
              errorLabelE (a3 ++ [Ev.dup2Ev e0 0, Ev.dup2Ev e1 1])
            else if cfg.dup2Fail 2 then
              errorLabelE (a3 ++ [Ev.dup2Ev e0 0, Ev.dup2Ev e1 1, Ev.dup2Ev e2 2])
            else
              (COut.reply (cfg.run na argv),
               a3 ++ [Ev.dup2Ev e0 0, Ev.dup2Ev e1 1, Ev.dup2Ev e2 2,
                      Ev.runEv na argv (cfg.run na argv), Ev.dlcloseEv] ++
               (if cfg.hasOnExit then
                 [Ev.registerHookEv, Ev.exitEv (cfg.run na argv),
                  Ev.statusWrite (cfg.run na argv)]
                 else [Ev.statusWrite (cfg.run na argv),
                       Ev.exitEv (cfg.run na argv)]))
    else errorLabelE (acc ++ [Ev.dlopenEv cp, Ev.dlsymEv])
  else errorLabelE (acc ++ [Ev.dlopenEv cp])

/-- grow_this_zygote in the refined model: identical to the abstract
layer on executions whose reads complete or fail with -1 and whose
counts are sane, but additionally faithful to zygote.c on the paths the
abstract layer collapses.  After the envc read (line 218), the unchecked
`env = environ = malloc((num + 1) * sizeof(char*))` at line 219: for
num <= -2 the requested size exceeds the address space, malloc returns
NULL and the unconditional `*env = NULL` at line 223 faults with nothing
written (crash); for num = -1 the store overflows a zero-sized
allocation (undef).  After the argc read (line 230), the unchecked
`argv = malloc(argc * sizeof(char*))` at line 231 (note argv_0 is still
read from the channel before the faulting store at line 233): argc < 0
gives a NULL argv and a faulting store (crash), argc = 0 a zero-sized
allocation overflowed by argv[0] (undef). -/
def grow_this_zygoteE (cfg : Cfg) (inp : List WItem) : COut × List Ev :=
  match recvNumE Field.version inp [] with
  | EStep.halt r => r
  | EStep.ok v i1 a1 =>
    if v = cfg.zver then
      match recvNumE Field.envc i1 (a1 ++ [Ev.pidWrite cfg.pid]) with
      | EStep.halt r => r
      | EStep.ok ne i2 a2 =>
        if ne < -1 then (COut.crash, a2)
        else if ne = -1 then (COut.undef, a2)
        else
          match growEStrs Field.envStr ne.toNat i2 a2 with
          | EStep.halt r => r
          | EStep.ok env i3 a3 =>
            match recvStrE Field.cwd i3 (a3 ++ [Ev.setEnvEv env]) with
            | EStep.halt r => r
            | EStep.ok cwd i4 a4 =>
              match recvNumE Field.argcF i4 (a4 ++ [Ev.chdirEv cwd]) with
              | EStep.halt r => r
              | EStep.ok na i5 a5 =>
                match recvStrE Field.argv0 i5 a5 with
                | EStep.halt r => r
                | EStep.ok cp i6 a6 =>
                  if na < 0 then (COut.crash, a6)
                  else if na = 0 then (COut.undef, a6)
                  else
                    match growEStrs Field.argvI (na - 1).toNat i6 a6 with
                    | EStep.halt r => r
                    | EStep.ok args i7 a7 =>
                      growEDispatch cfg cp na (cp :: args) i7 a7
    else errorLabelE a1

/-- C1 (code-bug evidence): the code does not implement the claimed
reply-on-every-path invariant.  Three concrete executions of the refined
model, which distinguishes read outcomes exactly as the checks at
zygote.c lines 182, 194 and 257-259 do: (i) a read error (-1) after the
version IS detected and produces the single failure Response; (ii) an
EOF right after the version is NOT detected as a failure — no failure
status is written, the child continues on stale data (the claimed
short-read-to-failure-status behavior does not exist in the code);
(iii) the failing input — a matching version followed by the completely
read environment count -2 — reaches the unchecked malloc at line 219,
whose NULL result is dereferenced by the store at line 223: the child
faults after the pid write with NO Response of any kind written, leaving
the client with no reply. -/
theorem growE_failing_input_no_reply :
    (grow_this_zygoteE cfgDemo [WItem.wint 7, WItem.werr]).1 = COut.failStatus ∧
    (grow_this_zygoteE cfgDemo [WItem.wint 7, WItem.werr]).2.countP isStatusWrite = 1 ∧
    (grow_this_zygoteE cfgDemo [WItem.wint 7]).1 = COut.undef ∧
    (grow_this_zygoteE cfgDemo [WItem.wint 7]).2.countP isStatusWrite = 0 ∧
    (grow_this_zygoteE cfgDemo [WItem.wint 7, WItem.wint (-2)]).1 = COut.crash ∧
    Ev.pidWrite 42 ∈ (grow_this_zygoteE cfgDemo [WItem.wint 7, WItem.wint (-2)]).2 ∧
    (grow_this_zygoteE cfgDemo [WItem.wint 7, WItem.wint (-2)]).2.countP
      isStatusWrite = 0 := by
  decide

/-- C2: whenever the unit entry point is invoked, the trace contains,
immediately before the invocation, the three descriptor receptions in the
fixed order stderr, stdout, stdin (matching the client send order, which
is also stated: every encoded request ends with the three transfers in
that order), followed by the dup2 calls installing the stderr descriptor
onto slot 2, the stdout descriptor onto slot 1 and the stdin descriptor
onto slot 0. -/
theorem grow_fds_order_installed_before_run (cfg : Cfg) (inp : List RItem)
    (na : Int) (argv : List String) (r : Int)
    (h : Ev.runEv na argv r ∈ grow_this_zygote cfg inp) :
    (∃ p q e0 e1 e2,
      grow_this_zygote cfg inp =
        p ++ [Ev.recvFdEv Field.fdStderr e2, Ev.recvFdEv Field.fdStdout e1,
              Ev.recvFdEv Field.fdStdin e0, Ev.dup2Ev e0 0, Ev.dup2Ev e1 1,
              Ev.dup2Ev e2 2, Ev.runEv na argv r] ++ q) ∧
    (∀ zv env cwd cargv, ∃ w, encodeRequest zv env cwd cargv =
        w ++ [RItem.rfd 2, RItem.rfd 1, RItem.rfd 0]) := by
  constructor
  · rcases hb : growBody cfg inp with ⟨rr, i, t⟩
    cases rr with
    | none =>
      exfalso
      have hg : grow_this_zygote cfg inp =
          t ++ [Ev.statusWrite 1, Ev.closeConn, Ev.exitEv 1] := by
        unfold grow_this_zygote
        rw [hb]
      rw [hg] at h
      rcases List.mem_append.mp h with hm | hm
      · exact growBody_none_no_run cfg inp i t hb na argv r hm
      · simp at hm
    | some n =>
      obtain ⟨cp, na2, argv2, tp, e2, e1, e0, hpre, hn, ht⟩ :=
        growBody_some_char cfg inp n i t hb
      have hg : grow_this_zygote cfg inp =
          t ++ (if cfg.hasOnExit then
            [Ev.registerHookEv, Ev.exitEv n, Ev.statusWrite n]
            else [Ev.statusWrite n, Ev.exitEv n]) := by
        unfold grow_this_zygote
        rw [hb]
      have hpre_all : ∀ e ∈ tp, preambleEv e = true := by
        intro e he
        have h1 := readPreamble_all cfg inp e
        rw [hpre] at h1
        exact h1 he
      rw [hg, ht] at h
      have hm : Ev.runEv na argv r ∈
          tp ++ [Ev.dlopenEv cp, Ev.dlsymEv, Ev.recvFdEv Field.fdStderr e2,
                 Ev.recvFdEv Field.fdStdout e1, Ev.recvFdEv Field.fdStdin e0,
                 Ev.dup2Ev e0 0, Ev.dup2Ev e1 1, Ev.dup2Ev e2 2,
                 Ev.runEv na2 argv2 n, Ev.dlcloseEv] := by
        rcases List.mem_append.mp h with hm | hm
        · exact hm
        · exfalso
          by_cases hoe : cfg.hasOnExit <;> simp [hoe] at hm
      have heq : na = na2 ∧ argv = argv2 ∧ r = n := by
        rcases List.mem_append.mp hm with hm2 | hm2
        · exact absurd (hpre_all _ hm2) (by simp [preambleEv])
        · simp only [List.mem_cons, List.not_mem_nil, or_false,
            Ev.runEv.injEq] at hm2
          rcases hm2 with h2 | h2 | h2 | h2 | h2 | h2 | h2 | h2 | h2 | h2 <;>
            first
              | exact h2
              | exact absurd h2 (by simp)
      obtain ⟨hna, hargv, hr⟩ := heq
      subst hna
      subst hargv
      subst hr
      refine ⟨tp ++ [Ev.dlopenEv cp, Ev.dlsymEv],
              Ev.dlcloseEv :: (if cfg.hasOnExit then
                [Ev.registerHookEv, Ev.exitEv r, Ev.statusWrite r]
                else [Ev.statusWrite r, Ev.exitEv r]),
              e0, e1, e2, ?_⟩
      rw [hg, ht]
      simp
  · intro zv env cwd cargv
    refine ⟨RItem.rint zv :: RItem.rint (Int.ofNat env.length) ::
      (env.map RItem.rstr ++
       (RItem.rstr cwd :: RItem.rint (Int.ofNat cargv.length - 2) ::
        RItem.rstr (cargv.getD 2 "") :: (cargv.drop 3).map RItem.rstr)), ?_⟩
    simp [encodeRequest]

/-- C2 witness: a concrete well-formed request on which the unit runs and
the descriptor block appears as stated. -/
theorem grow_fds_order_installed_before_run_witness :
    Ev.runEv 2 ["unit.so", "x"] 5 ∈ grow_this_zygote cfgDemo reqDemo ∧
    ((∃ p q e0 e1 e2,
      grow_this_zygote cfgDemo reqDemo =
        p ++ [Ev.recvFdEv Field.fdStderr e2, Ev.recvFdEv Field.fdStdout e1,
              Ev.recvFdEv Field.fdStdin e0, Ev.dup2Ev e0 0, Ev.dup2Ev e1 1,
              Ev.dup2Ev e2 2, Ev.runEv 2 ["unit.so", "x"] 5] ++ q) ∧
    (∀ zv env cwd cargv, ∃ w, encodeRequest zv env cwd cargv =
        w ++ [RItem.rfd 2, RItem.rfd 1, RItem.rfd 0])) :=
  ⟨by decide,
   grow_fds_order_installed_before_run cfgDemo reqDemo 2 ["unit.so", "x"] 5 (by decide)⟩

/-- C3: when the received protocol version equals the compiled-in
constant, the child writes its pid on the channel immediately after the
version read, before any further read: the trace starts with exactly
those two events. -/
theorem grow_pid_reply_precedes_decoding (cfg : Cfg) (v : Int)
    (rest : List RItem) (h : v = cfg.zver) :
    ∃ t, grow_this_zygote cfg (RItem.rint v :: rest) =
      Ev.readEv Field.version :: Ev.pidWrite cfg.pid :: t := by
  obtain ⟨d, hd⟩ := grow_this_zygote_preamble_prefix cfg (RItem.rint v :: rest)
  have hpre : ∃ t2, (readPreamble cfg (RItem.rint v :: rest)).2.2 =
      Ev.readEv Field.version :: Ev.pidWrite cfg.pid :: t2 := by
    unfold readPreamble recvNum
    rcases h2 : readPreambleRest rest with ⟨r2, i2, t2⟩
    simp [h, h2]
  obtain ⟨t2, h2⟩ := hpre
  rw [h2] at hd
  exact ⟨t2 ++ d, by rw [hd]; simp⟩

/-- C3 witness: with the demo configuration (version constant 7) and a
request starting with version 7, the trace starts with the version read
and the pid write. -/
theorem grow_pid_reply_precedes_decoding_witness :
    (7 : Int) = cfgDemo.zver ∧
    ∃ t, grow_this_zygote cfgDemo (RItem.rint 7 :: []) =
      Ev.readEv Field.version :: Ev.pidWrite cfgDemo.pid :: t :=
  ⟨by decide, grow_pid_reply_precedes_decoding cfgDemo 7 [] (by decide)⟩

/-- C4: on a version mismatch the child trace is exactly the version
read, the failure-status write, the close of the channel and the exit:
in particular no pid is written, no further field is read, and the
channel is closed, terminating the request. -/
theorem grow_version_mismatch_terminates (cfg : Cfg) (v : Int)
    (rest : List RItem) (h : ¬ v = cfg.zver) :
    grow_this_zygote cfg (RItem.rint v :: rest) =
      [Ev.readEv Field.version, Ev.statusWrite 1, Ev.closeConn, Ev.exitEv 1] ∧
    (∀ n, Ev.pidWrite n ∉ grow_this_zygote cfg (RItem.rint v :: rest)) ∧
    (∀ f, ¬ f = Field.version →
      Ev.readEv f ∉ grow_this_zygote cfg (RItem.rint v :: rest)) ∧
    Ev.closeConn ∈ grow_this_zygote cfg (RItem.rint v :: rest) ∧
    Ev.exitEv 1 ∈ grow_this_zygote cfg (RItem.rint v :: rest) := by
  have key : grow_this_zygote cfg (RItem.rint v :: rest) =
      [Ev.readEv Field.version, Ev.statusWrite 1, Ev.closeConn, Ev.exitEv 1] := by
    unfold grow_this_zygote growBody readPreamble recvNum
    simp [h]
  refine ⟨key, ?_, ?_, ?_, ?_⟩
  · intro n
    rw [key]
    simp
  · intro f hf
    rw [key]
    simp [hf]
  · rw [key]
    simp
  · rw [key]
    simp

/-- C4 witness: version 9 against the demo constant 7. -/
theorem grow_version_mismatch_terminates_witness :
    ¬ (9 : Int) = cfgDemo.zver ∧
    grow_this_zygote cfgDemo (RItem.rint 9 :: []) =
      [Ev.readEv Field.version, Ev.statusWrite 1, Ev.closeConn, Ev.exitEv 1] :=
  ⟨by decide,
   (grow_version_mismatch_terminates cfgDemo 9 [] (by decide)).1⟩

/-- A second concrete well-formed request (no extra arguments). -/
def reqDemo2 : List RItem := encodeRequest 7 [] "/" ["grow", "s", "c"]

/-- C9 counterexample: a successful dispatch in which the unit entry
point is invoked after the three dup2 installations, yet the trace
contains no close of any descriptor other than the connection: the
original carrier descriptors are not closed before the invocation, so
"every original carrier descriptor is closed before the entry point is
invoked" fails on this input. -/
theorem grow_carriers_not_closed_cex :
    Ev.runEv 1 ["c"] 5 ∈ grow_this_zygote cfgDemo reqDemo2 ∧
    Ev.dup2Ev 0 0 ∈ grow_this_zygote cfgDemo reqDemo2 ∧
    Ev.dup2Ev 1 1 ∈ grow_this_zygote cfgDemo reqDemo2 ∧
    Ev.dup2Ev 2 2 ∈ grow_this_zygote cfgDemo reqDemo2 ∧
    (grow_this_zygote cfgDemo reqDemo2).countP isCloseFd = 0 := by
  decide

/-- C9 amended: after duplicating the received carriers onto the standard
slots the child invokes the entry point without closing the originals; no
close of a carrier descriptor ever occurs in a child trace (the source
has no close call on fds[0..2]), so both the originals and the copies
remain open during the unit execution. -/
theorem grow_carriers_never_closed (cfg : Cfg) (inp : List RItem) :
    (grow_this_zygote cfg inp).countP isCloseFd = 0 := by
  rcases hb : growBody cfg inp with ⟨r, i, t⟩
  have hall := growBody_all cfg inp
  rw [hb] at hall
  have ht0 : t.countP isCloseFd = 0 := by
    rw [List.countP_eq_zero]
    intro e he
    have h1 := hall e he
    cases e <;> simp_all [bodyEvOk, isCloseFd]
  cases r with
  | none =>
    have hg : grow_this_zygote cfg inp =
        t ++ [Ev.statusWrite 1, Ev.closeConn, Ev.exitEv 1] := by
      unfold grow_this_zygote
      rw [hb]
    rw [hg, List.countP_append, ht0]
    decide
  | some n =>
    have hg : grow_this_zygote cfg inp =
        t ++ (if cfg.hasOnExit then
          [Ev.registerHookEv, Ev.exitEv n, Ev.statusWrite n]
          else [Ev.statusWrite n, Ev.exitEv n]) := by
      unfold grow_this_zygote
      rw [hb]
    rw [hg, List.countP_append, ht0]
    by_cases hoe : cfg.hasOnExit <;> simp [hoe, List.countP_cons, isCloseFd]

lemma encodeRequest_struct (zv : Int) (env : List String) (cwd g s cp : String)
    (args : List String) :
    encodeRequest zv env cwd (g :: s :: cp :: args) =
      RItem.rint zv :: RItem.rint (Int.ofNat env.length) ::
      (env.map RItem.rstr ++
       (RItem.rstr cwd :: RItem.rint (Int.ofNat args.length + 1) ::
        RItem.rstr cp ::
        (args.map RItem.rstr ++ [RItem.rfd 2, RItem.rfd 1, RItem.rfd 0]))) := by
  have hlen : Int.ofNat (g :: s :: cp :: args).length - 2 = Int.ofNat args.length + 1 := by
    simp [List.length_cons]
    ring
  unfold encodeRequest
  rw [hlen]
  simp only [List.getD_cons_succ, List.getD_cons_zero, List.drop_succ_cons,
    List.drop_zero]

lemma getD_after_env (env : List String) (rest2 : List RItem) (k : Nat) :
    (env.map RItem.rstr ++ rest2).getD (env.length + k) (RItem.rint 0) =
      rest2.getD k (RItem.rint 0) := by
  induction env with
  | nil => simp
  | cons e es ih =>
    have h1 : (e :: es).length + k = (es.length + k) + 1 := by
      simp [List.length_cons]
      omega
    rw [h1]
    simpa using ih

lemma drop_after_env (env : List String) (rest2 : List RItem) (k : Nat) :
    (env.map RItem.rstr ++ rest2).drop (env.length + k) = rest2.drop k := by
  induction env with
  | nil => simp
  | cons e es ih =>
    have h1 : (e :: es).length + k = (es.length + k) + 1 := by
      simp [List.length_cons]
      omega
    rw [h1]
    simpa using ih

lemma takeWhile_args (args : List String) :
    (args.map RItem.rstr ++
      [RItem.rfd 2, RItem.rfd 1, RItem.rfd 0]).takeWhile isRstrB =
      args.map RItem.rstr := by
  induction args with
  | nil => simp [isRstrB]
  | cons a as ih => simp [List.takeWhile_cons, isRstrB, ih]

lemma sentArgvCount_eq (zv : Int) (env : List String) (cwd g s cp : String)
    (args : List String) :
    sentArgvCount zv env cwd (g :: s :: cp :: args) =
      RItem.rint (Int.ofNat args.length + 1) := by
  unfold sentArgvCount
  rw [encodeRequest_struct]
  have h1 : 3 + env.length = (env.length + 1) + 1 + 1 := by omega
  rw [h1]
  simp only [List.getD_cons_succ]
  rw [getD_after_env env _ 1]
  rfl

lemma sentArgvTail_eq (zv : Int) (env : List String) (cwd g s cp : String)
    (args : List String) :
    sentArgvTail zv env cwd (g :: s :: cp :: args) = args.map RItem.rstr := by
  unfold sentArgvTail
  rw [encodeRequest_struct]
  have h1 : 5 + env.length = (env.length + 3) + 1 + 1 := by omega
  rw [h1]
  simp only [List.drop_succ_cons]
  rw [drop_after_env env _ 3]
  simp only [List.drop_succ_cons, List.drop_zero]
  exact takeWhile_args args

/-- C5 counterexample: invoking the client as
`grow sock code a` (exactly one caller argument "a" besides the locator
"code").  The claim predicts an argv_count of 1 on the wire and a run of
argv_count additional argument strings after the locator; the encoding
actually carries the integer 2 in the argv_count position while exactly
one additional argument string follows the locator. -/
theorem client_argv_count_cex :
    sentArgvCount 7 [] "/w" ["grow", "sock", "code", "a"] = RItem.rint 2 ∧
    sentArgvTail 7 [] "/w" ["grow", "sock", "code", "a"] = [RItem.rstr "a"] ∧
    ¬ sentArgvCount 7 [] "/w" ["grow", "sock", "code", "a"] = RItem.rint 1 ∧
    ¬ (sentArgvTail 7 [] "/w" ["grow", "sock", "code", "a"]).length = 2 := by
  decide

lemma readStrs_encode (f : Field) (ss : List String) (rest : List RItem) :
    readStrs f ss.length (ss.map RItem.rstr ++ rest) =
      (some ss, rest, List.replicate ss.length (Ev.readEv f)) := by
  induction ss with
  | nil => rfl
  | cons a as ih =>
    simp only [List.map_cons, List.length_cons, List.cons_append]
    simp [readStrs, recvStr, ih, List.replicate_succ]

lemma readPreambleRest_encode (env : List String) (cwd cp : String)
    (args : List String) (rest : List RItem) :
    readPreambleRest (RItem.rint (Int.ofNat env.length) ::
        (env.map RItem.rstr ++
         (RItem.rstr cwd :: RItem.rint (Int.ofNat args.length + 1) ::
          RItem.rstr cp :: (args.map RItem.rstr ++ rest)))) =
      (some (cp, Int.ofNat args.length + 1, cp :: args), rest,
       [Ev.readEv Field.envc] ++
       List.replicate env.length (Ev.readEv Field.envStr) ++
       (Ev.setEnvEv env ::
        ([Ev.readEv Field.cwd] ++
         (Ev.chdirEv cwd ::
          ([Ev.readEv Field.argcF] ++ ([Ev.readEv Field.argv0] ++
           List.replicate args.length (Ev.readEv Field.argvI))))))) := by
  simp [readPreambleRest, recvNum, recvStr, readStrs_encode, Int.toNat_ofNat,
    Int.add_sub_cancel]

lemma readPreamble_encode (cfg : Cfg) (env : List String) (cwd g s cp : String)
    (args : List String) :
    readPreamble cfg (encodeRequest cfg.zver env cwd (g :: s :: cp :: args)) =
      (some (cp, Int.ofNat args.length + 1, cp :: args),
       [RItem.rfd 2, RItem.rfd 1, RItem.rfd 0],
       [Ev.readEv Field.version] ++ (Ev.pidWrite cfg.pid ::
         ([Ev.readEv Field.envc] ++
          List.replicate env.length (Ev.readEv Field.envStr) ++
          (Ev.setEnvEv env ::
           ([Ev.readEv Field.cwd] ++
            (Ev.chdirEv cwd ::
             ([Ev.readEv Field.argcF] ++ ([Ev.readEv Field.argv0] ++
              List.replicate args.length (Ev.readEv Field.argvI))))))))) := by
  rw [encodeRequest_struct]
  unfold readPreamble
  simp only [recvNum, if_true]
  rw [readPreambleRest_encode]

lemma growBody_encode (cfg : Cfg) (env : List String) (cwd g s cp : String)
    (args : List String) (h1 : cfg.dlopenOk cp = true) (h2 : cfg.dlsymOk cp = true)
    (h3 : cfg.dup2Fail 0 = false) (h4 : cfg.dup2Fail 1 = false)
    (h5 : cfg.dup2Fail 2 = false) :
    ∃ t, growBody cfg (encodeRequest cfg.zver env cwd (g :: s :: cp :: args)) =
      (some (cfg.run (Int.ofNat args.length + 1) (cp :: args)), [], t) ∧
      Ev.runEv (Int.ofNat args.length + 1) (cp :: args)
        (cfg.run (Int.ofNat args.length + 1) (cp :: args)) ∈ t := by
  have hfin : finishDispatch cfg cp (Int.ofNat args.length + 1) (cp :: args)
      [RItem.rfd 2, RItem.rfd 1, RItem.rfd 0] =
      (some (cfg.run (Int.ofNat args.length + 1) (cp :: args)), [],
       [Ev.dlopenEv cp, Ev.dlsymEv, Ev.recvFdEv Field.fdStderr 2,
        Ev.recvFdEv Field.fdStdout 1, Ev.recvFdEv Field.fdStdin 0,
        Ev.dup2Ev 0 0, Ev.dup2Ev 1 1, Ev.dup2Ev 2 2,
        Ev.runEv (Int.ofNat args.length + 1) (cp :: args)
          (cfg.run (Int.ofNat args.length + 1) (cp :: args)), Ev.dlcloseEv]) := by
    unfold finishDispatch readFds
    simp [h1, h2, h3, h4, h5]
  unfold growBody
  rw [readPreamble_encode cfg env cwd g s cp args]
  simp only [hfin]
  refine ⟨_, rfl, ?_⟩
  simp

/-- C5 amended: the argv_count integer on the wire equals the number of
caller-supplied arguments INCLUDING the code-unit locator (one more than
the extra arguments), and exactly argv_count - 1 additional
length-prefixed argument strings follow the locator; the daemon decodes
them into an argument vector whose element 0 is the locator and whose
length is argv_count. -/
theorem client_argv_count_amended (cfg : Cfg) (env : List String)
    (cwd g s cp : String) (args : List String)
    (h1 : cfg.dlopenOk cp = true) (h2 : cfg.dlsymOk cp = true)
    (h3 : cfg.dup2Fail 0 = false) (h4 : cfg.dup2Fail 1 = false)
    (h5 : cfg.dup2Fail 2 = false) :
    sentArgvCount cfg.zver env cwd (g :: s :: cp :: args) =
      RItem.rint (Int.ofNat args.length + 1) ∧
    sentArgvTail cfg.zver env cwd (g :: s :: cp :: args) = args.map RItem.rstr ∧
    (sentArgvTail cfg.zver env cwd (g :: s :: cp :: args)).length = args.length ∧
    ∃ r, Ev.runEv (Int.ofNat args.length + 1) (cp :: args) r ∈
      grow_this_zygote cfg (encodeRequest cfg.zver env cwd (g :: s :: cp :: args)) := by
  refine ⟨sentArgvCount_eq cfg.zver env cwd g s cp args,
          sentArgvTail_eq cfg.zver env cwd g s cp args, ?_, ?_⟩
  · rw [sentArgvTail_eq]
    simp
  · obtain ⟨t, hgb, hmem⟩ := growBody_encode cfg env cwd g s cp args h1 h2 h3 h4 h5
    refine ⟨cfg.run (Int.ofNat args.length + 1) (cp :: args), ?_⟩
    have hg : grow_this_zygote cfg (encodeRequest cfg.zver env cwd (g :: s :: cp :: args)) =
        t ++ (if cfg.hasOnExit then
          [Ev.registerHookEv,
           Ev.exitEv (cfg.run (Int.ofNat args.length + 1) (cp :: args)),
           Ev.statusWrite (cfg.run (Int.ofNat args.length + 1) (cp :: args))]
          else [Ev.statusWrite (cfg.run (Int.ofNat args.length + 1) (cp :: args)),
                Ev.exitEv (cfg.run (Int.ofNat args.length + 1) (cp :: args))]) := by
      unfold grow_this_zygote
      rw [hgb]
    rw [hg]
    exact List.mem_append_left _ hmem

/-- C5 amended witness: the concrete invocation `grow s c a` with one
extra argument. -/
theorem client_argv_count_amended_witness :
    cfgDemo.dlopenOk "c" = true ∧
    (sentArgvCount cfgDemo.zver [] "/" ["grow", "s", "c", "a"] =
      RItem.rint (Int.ofNat (["a"] : List String).length + 1) ∧
     sentArgvTail cfgDemo.zver [] "/" ["grow", "s", "c", "a"] =
       (["a"] : List String).map RItem.rstr ∧
     (sentArgvTail cfgDemo.zver [] "/" ["grow", "s", "c", "a"]).length =
       (["a"] : List String).length ∧
     ∃ r, Ev.runEv (Int.ofNat (["a"] : List String).length + 1) ("c" :: ["a"]) r ∈
       grow_this_zygote cfgDemo
         (encodeRequest cfgDemo.zver [] "/" ["grow", "s", "c", "a"])) :=
  ⟨by decide,
   client_argv_count_amended cfgDemo [] "/" "grow" "s" "c" ["a"]
     (by decide) (by decide) (by decide) (by decide) (by decide)⟩

/-- A concrete client configuration on the all-success path. -/
def clientDemo : ClientCfg :=
  { env := ["E=1"], cwd := "/", zver := 7, pathFits := true, sockOk := true,
    connectOk := true, response := some 4 }

/-- C6: the client exit status equals the received Response integer when
the whole exchange succeeds; any connect-phase failure (path too long,
socket creation, connect) or a failed reply read yields the distinguished
transmission-failure code -1; fewer than two operands is a usage error
with its own distinct code 1, detected before any channel activity (the
trace is just the usage message: no socket is created or connected); the
codes 1 and -1 are non-zero and distinct from each other. -/
theorem growMain_exit_status (c : ClientCfg) (argv : List String) :
    (argv.length < 3 →
      growMain c argv = (1, [CEv.usageMsg]) ∧
      CEv.sockCreate ∉ (growMain c argv).2 ∧
      CEv.connectAttempt ∉ (growMain c argv).2) ∧
    (¬ argv.length < 3 → (open_unix_fd c).1 = true →
      (∀ n, c.response = some n → (growMain c argv).1 = n) ∧
      (c.response = none → (growMain c argv).1 = -1)) ∧
    (¬ argv.length < 3 → (open_unix_fd c).1 = false →
      (growMain c argv).1 = -1) ∧
    ((1 : Int) ≠ 0 ∧ (-1 : Int) ≠ 0 ∧ ¬ (1 : Int) = -1) := by
  refine ⟨?_, ?_, ?_, by norm_num⟩
  · intro h
    have key : growMain c argv = (1, [CEv.usageMsg]) := by
      unfold growMain
      rw [if_pos h]
    refine ⟨key, ?_, ?_⟩ <;> rw [key] <;> simp
  · intro h3 hopen
    rcases ho : open_unix_fd c with ⟨b, t⟩
    rw [ho] at hopen
    simp at hopen
    subst hopen
    constructor
    · intro n hn
      unfold growMain
      rw [if_neg h3, ho, hn]
    · intro hn
      unfold growMain
      rw [if_neg h3, ho, hn]
  · intro h3 hopen
    rcases ho : open_unix_fd c with ⟨b, t⟩
    rw [ho] at hopen
    simp at hopen
    subst hopen
    unfold growMain
    rw [if_neg h3, ho]

/-- C6 witness: the all-success path with Response 4 yields exit status 4. -/
theorem growMain_exit_status_witness :
    ¬ (["grow", "s", "c"] : List String).length < 3 ∧
    (open_unix_fd clientDemo).1 = true ∧
    clientDemo.response = some 4 ∧
    (growMain clientDemo ["grow", "s", "c"]).1 = 4 :=
  ⟨by decide, by decide, by decide,
   ((growMain_exit_status clientDemo ["grow", "s", "c"]).2.1
     (by decide) (by decide)).1 4 (by decide)⟩

/-- C7: in every freshly forked child the endpoint state is overwritten
with fd -1 and no path before the dispatch, and the cleanup routine on
that cleared state attempts no close and no unlink; the dispatch then
proceeds as grow_this_zygote. -/
theorem zygote_child_clears_endpoint (inh : Endpoint) (cfg : Cfg)
    (inp : List RItem) :
    (zygoteChildBranch inh cfg inp).1.fd = -1 ∧
    (zygoteChildBranch inh cfg inp).1.path = none ∧
    cleanupActs (zygoteChildBranch inh cfg inp).1 = [] ∧
    (zygoteChildBranch inh cfg inp).2 = grow_this_zygote cfg inp := by
  refine ⟨rfl, rfl, ?_, rfl⟩
  simp [zygoteChildBranch, forkChildClear, cleanupActs]

/-- A concrete endpoint state as held by the daemon parent. -/
def endpointDemo : Endpoint := { fd := 5, path := some "/tmp/z.sock" }

/-- C8 counterexample: the first cleanup invocation does NOT clear the
path reference (the state is returned unchanged), and the second
invocation does attempt a second unlink of the socket path (and a second
close), contradicting the claim that no second unlink is attempted
because the path was cleared. -/
theorem cleanup_second_unlink_cex :
    (cleanup endpointDemo).1.path = some "/tmp/z.sock" ∧
    (cleanup endpointDemo).1 = endpointDemo ∧
    CleanAct.unlinkA "/tmp/z.sock" ∈ (cleanup (cleanup endpointDemo).1).2 ∧
    CleanAct.closeA 5 ∈ (cleanup (cleanup endpointDemo).1).2 := by
  decide

/-- C8 amended: invoking cleanup a second time does not crash and simply
repeats the identical close/unlink attempts, because the routine leaves
the endpoint state unchanged; idempotence holds in the sense that the
second invocation is indistinguishable from the first (same resulting
state, same attempted actions), its repeated system calls being harmless
as their results are ignored. -/
theorem cleanup_second_invocation_same (e : Endpoint) :
    (cleanup e).1 = e ∧ cleanup ((cleanup e).1) = cleanup e :=
  ⟨rfl, rfl⟩

/-- A concrete zygote_skip configuration whose entry point records its
arguments in the result. -/
def skipDemo : SkipCfg :=
  { dlopenSelfOk := true, dlsymOk := true,
    run := fun a v => a + Int.ofNat v.length }

/-- C10: the direct-invocation fallback calls the entry point resolved
from the daemon image with argc 1 and argv [""] and returns its value;
when dlopen of the own image or the dlsym lookup fails it returns -1.  No
channel input and no caller-supplied argument strings are involved: the
model is a function of the loading oracles and entry point alone. -/
theorem zygote_skip_spec (cfg : SkipCfg) :
    (cfg.dlopenSelfOk = true → cfg.dlsymOk = true →
      zygote_skip cfg = cfg.run 1 [""]) ∧
    (cfg.dlopenSelfOk = false → zygote_skip cfg = -1) ∧
    (cfg.dlsymOk = false → zygote_skip cfg = -1) := by
  refine ⟨?_, ?_, ?_⟩
  · intro h1 h2
    unfold zygote_skip
    rw [if_pos h1, if_pos h2]
  · intro h1
    unfold zygote_skip
    simp [h1]
  · intro h2
    unfold zygote_skip
    by_cases h1 : cfg.dlopenSelfOk <;> simp [h1, h2]

/-- C10 witness: with successful resolution the fallback returns
run 1 [""] = 1 + 1 = 2. -/
theorem zygote_skip_spec_witness :
    skipDemo.dlopenSelfOk = true ∧ skipDemo.dlsymOk = true ∧
    zygote_skip skipDemo = skipDemo.run 1 [""] ∧
    zygote_skip skipDemo = 2 :=
  ⟨by decide, by decide,
   (zygote_skip_spec skipDemo).1 (by decide) (by decide), by decide⟩

end Libzygote
